import Mathlib

/-!
Shallow embedding of the `UserEntry` class (src/unnamed/part_000) of the
Dank-Memer repository: the deferred-mutation record model, its deep-merge
based ChangeSet accumulator, the currency mutation methods, the commit
(`save`) operation and the two serialization views.
-/

namespace DankMemer

/-- A deferred ReQL expression stored in the ChangeSet, as built by the
mutation methods from the gateway client `this._client.r`:
`r.row(field).add(amount)`, `r.expr([r.row(field).sub(amount), 0]).max()`
and the hard-coded `r.row("streak")("streak").add(1)` of `updateStreak`.
These are opaque server-side operations (external library objects); the
ChangeSet stores them as leaves. -/
inductive Rql where
  | rowAdd (field : String) (amount : Int)
  | rowSubClampZero (field : String) (amount : Int)
  | streakStreakAddOne
deriving DecidableEq

/-- A JavaScript-style value as stored in documents and in the ChangeSet:
numbers, strings, booleans, deferred ReQL expressions, and nested objects
represented as association lists in property insertion order. -/
inductive Value where
  | vInt (n : Int)
  | vStr (s : String)
  | vBool (b : Bool)
  | vRql (q : Rql)
  | vObj (fields : List (String × Value))

/-- Property read `o[key]`: the value at the first occurrence of `key`
(JavaScript objects carry each key at most once). -/
def lookupVal : List (String × Value) → String → Option Value
  | [], _ => none
  | (k, v) :: rest, key => if k = key then some v else lookupVal rest key

/-- Property write `o[key] = v`: updates the existing key in place
(keeping its position, as JavaScript insertion order does) or appends a
new key at the end. -/
def setKey : List (String × Value) → String → Value → List (String × Value)
  | [], key, v => [(key, v)]
  | (k, w) :: rest, key, v =>
      if k = key then (k, v) :: rest else (k, w) :: setKey rest key v

mutual

/-- The per-key decision of `UserEntry._deepMerge` (lines 230-240): the
first argument is the `target` value at the key (`none` when the key is
absent, i.e. `undefined`, which is falsy). When the existing value is a
truthy object and the incoming value is an object too, the merge
recurses; in every other case (key absent, existing value not an object,
or incoming value not an object) the `source` value replaces outright. -/
def mergeOpt : Option Value → Value → Value
  | some (Value.vObj tf), Value.vObj sf => Value.vObj (deepMergeGo tf tf sf)
  | _, sv => sv
termination_by _ v => sizeOf v
decreasing_by all_goals simp_wf

/-- Worker for `UserEntry._deepMerge`. The JavaScript body first
shallow-copies every `target` entry into `destination` (pure: identity,
so `dest` starts as `target`), then walks the keys of `source` in order,
assigning each key the `mergeOpt` decision. -/
def deepMergeGo : List (String × Value) → List (String × Value) →
    List (String × Value) → List (String × Value)
  | _, dest, [] => dest
  | target, dest, (key, sv) :: rest =>
      deepMergeGo target (setKey dest key (mergeOpt (lookupVal target key) sv)) rest
termination_by _ _ s => sizeOf s
decreasing_by all_goals (simp_wf <;> omega)

end

/-- `UserEntry._deepMerge(target, source)` (src/unnamed/part_000 lines
224-242). -/
def deepMerge (target source : List (String × Value)) : List (String × Value) :=
  deepMergeGo target target source

/-- The `UserData` fields assigned onto a `UserEntry` by its constructor
via `Object.assign(this, userData)`. JavaScript numbers are modelled as
`Int`; the nested `streak` object is flattened into its two fields. -/
structure UserData where
  id : String
  pls : Int
  lastCmd : Int
  lastRan : String
  spam : Int
  pocket : Int
  bank : Int
  won : Int
  lost : Int
  shared : Int
  streakTime : Int
  streakStreak : Int
  upvoted : Bool
  dblUpvoted : Bool
deriving DecidableEq

/-- A `UserEntry` instance: the optimistic local field values plus the
accumulated `_changes` ChangeSet. The `_client` back-reference carries no
data relevant to the record model and is kept out of the state (the
`save` gateway is passed explicitly instead). -/
structure UserEntry where
  data : UserData
  changes : List (String × Value)

/-- The error thrown by the currency mutation methods when the mandatory
`amount` parameter is falsy. -/
inductive EntryError where
  | missingArgument
deriving DecidableEq

/-- `UserEntry.update(object)`: merges the patch onto `_changes` via
`_deepMerge` (lines 48-51). -/
def update (e : UserEntry) (object : List (String × Value)) : UserEntry :=
  { e with changes := deepMerge e.changes object }

/-- `UserEntry.addPocket(amount)` (lines 58-67). A falsy (zero) amount
throws before any state is touched; otherwise `pocket` and `won` grow by
`amount` locally and relative-add operations are merged into `_changes`. -/
def addPocket (e : UserEntry) (amount : Int) : Except EntryError UserEntry :=
  if amount = 0 then Except.error EntryError.missingArgument
  else
    let e1 := { e with data :=
      { e.data with pocket := e.data.pocket + amount, won := e.data.won + amount } }
    Except.ok (update e1
      [("pocket", Value.vRql (Rql.rowAdd "pocket" amount)),
       ("won", Value.vRql (Rql.rowAdd "won" amount))])

/-- `UserEntry.removePocket(amount)` (lines 74-83): local `pocket` is
clamped at 0 by `Math.max`, `lost` grows by `amount`; the deferred pocket
operation is the clamped subtraction expression. -/
def removePocket (e : UserEntry) (amount : Int) : Except EntryError UserEntry :=
  if amount = 0 then Except.error EntryError.missingArgument
  else
    let e1 := { e with data :=
      { e.data with pocket := max (e.data.pocket - amount) 0,
                    lost := e.data.lost + amount } }
    Except.ok (update e1
      [("pocket", Value.vRql (Rql.rowSubClampZero "pocket" amount)),
       ("lost", Value.vRql (Rql.rowAdd "lost" amount))])

/-- `UserEntry.addBank(amount, transfer = true)` (lines 91-104): `bank`
grows by `amount`; when `transfer` is set, `pocket` is reduced by
`amount` clamped at 0 and a second key is added to the changes object. -/
def addBank (e : UserEntry) (amount : Int) (transfer : Bool := true) :
    Except EntryError UserEntry :=
  if amount = 0 then Except.error EntryError.missingArgument
  else
    let e1 := { e with data := { e.data with bank := e.data.bank + amount } }
    if transfer then
      let e2 := { e1 with data :=
        { e1.data with pocket := max (e1.data.pocket - amount) 0 } }
      Except.ok (update e2
        [("bank", Value.vRql (Rql.rowAdd "bank" amount)),
         ("pocket", Value.vRql (Rql.rowSubClampZero "pocket" amount))])
    else
      Except.ok (update e1 [("bank", Value.vRql (Rql.rowAdd "bank" amount))])

/-- `UserEntry.removeBank(amount, transfer = true)` (lines 112-125):
`bank` is reduced by `amount` clamped at 0; when `transfer` is set,
`pocket` grows by the full `amount`. -/
def removeBank (e : UserEntry) (amount : Int) (transfer : Bool := true) :
    Except EntryError UserEntry :=
  if amount = 0 then Except.error EntryError.missingArgument
  else
    let e1 := { e with data :=
      { e.data with bank := max (e.data.bank - amount) 0 } }
    if transfer then
      let e2 := { e1 with data :=
        { e1.data with pocket := e1.data.pocket + amount } }
      Except.ok (update e2
        [("bank", Value.vRql (Rql.rowSubClampZero "bank" amount)),
         ("pocket", Value.vRql (Rql.rowAdd "pocket" amount))])
    else
      Except.ok (update e1
        [("bank", Value.vRql (Rql.rowSubClampZero "bank" amount))])

/-- `UserEntry.updateStreak(timestamp, streak)` (lines 133-137): the
local streak structure becomes the literal `{time: timestamp, streak}`,
while the patch merged into `_changes` sets `streak.time` literally and
`streak.streak` to the hard-coded relative expression
`r.row("streak")("streak").add(1)`. -/
def updateStreak (e : UserEntry) (timestamp streak : Int) : UserEntry :=
  update { e with data :=
      { e.data with streakTime := timestamp, streakStreak := streak } }
    [("streak", Value.vObj
      [("time", Value.vInt timestamp),
       ("streak", Value.vRql Rql.streakStreakAddOne)])]

/-- The default arguments of `updateStreak`: `timestamp = Date.now()`
(the ambient clock, passed explicitly here) and
`streak = this.streak.streak + 1`, both evaluated before the body runs. -/
def updateStreakDefaults (now : Int) (e : UserEntry) : UserEntry :=
  updateStreak e now (e.data.streakStreak + 1)

/-- The failure of the persistence gateway on `save` (connectivity,
constraint violation); the rejection reason is opaque to the record
model. -/
inductive PersistenceError where
  | failure (msg : String)
deriving DecidableEq

/-- The post-write result delivered by the gateway: the canonical stored
document `c.changes[0].new_val` returned by the ReQL
`insert(..., {conflict: "update", returnChanges: "always"})` query. -/
structure SaveResult where
  new_val : UserData
deriving DecidableEq

/-- The persistence gateway boundary consumed by `save`: given the
record's id and its accumulated ChangeSet it runs
`r.table("users").insert(r.table("users").get(id).default(defaultUser).merge(changes), ...)`
server-side and either rejects or returns the post-write document. -/
def Gateway : Type :=
  String → List (String × Value) → Except PersistenceError SaveResult

/-- `UserEntry.save()` (lines 188-192): sends the id and `_changes` to
the gateway; a rejection propagates unchanged (the promise chain has no
handler); on fulfilment the result is `new UserEntry(c.changes[0].new_val,
this._client)`, whose constructor assigns exactly the returned document
and sets `_changes = {}`. -/
def save (e : UserEntry) (g : Gateway) : Except PersistenceError UserEntry :=
  match g e.data.id e.changes with
  | Except.error err => Except.error err
  | Except.ok res => Except.ok { data := res.new_val, changes := [] }

/-- JSON quoting of an already serialized string, as `JSON.stringify`
does when a `toJSON` method returns a string (the escaping of inner
characters is irrelevant below: this point is never reached). -/
def jsonQuote (s : String) : String := "\x22" ++ s ++ "\x22"

/-- `UserEntry.toJSON()` (lines 198-200) returns `JSON.stringify(this)`.
Because `JSON.stringify` looks up and invokes the `toJSON` method of its
argument (the standard toJSON protocol) and then serializes the value it
returns, the call re-enters `toJSON` itself and never terminates. The
recursion is modelled with explicit fuel: `none` means the computation
has not produced a string within `fuel` nested `stringify` calls. -/
def toJSONFuel : Nat → UserEntry → Option String
  | 0, _ => none
  | fuel + 1, e => (toJSONFuel fuel e).map jsonQuote

/-- An own property of a `UserEntry` instance: either a data value or
the `_client` back-reference to the Memer instance (an opaque object). -/
inductive PropVal where
  | val (v : Value)
  | clientRef

/-- The nested `streak` object of the instance. -/
def streakValue (d : UserData) : Value :=
  Value.vObj [("time", Value.vInt d.streakTime), ("streak", Value.vInt d.streakStreak)]

/-- `Object.getOwnPropertyNames(this)` together with each property's
value: the `UserData` fields assigned by the constructor (in declaration
order), then `_client` and `_changes`. Methods live on the prototype and
are not own properties, so no own property has function type. -/
def ownProps (e : UserEntry) : List (String × PropVal) :=
  [("id", PropVal.val (Value.vStr e.data.id)),
   ("pls", PropVal.val (Value.vInt e.data.pls)),
   ("lastCmd", PropVal.val (Value.vInt e.data.lastCmd)),
   ("lastRan", PropVal.val (Value.vStr e.data.lastRan)),
   ("spam", PropVal.val (Value.vInt e.data.spam)),
   ("pocket", PropVal.val (Value.vInt e.data.pocket)),
   ("bank", PropVal.val (Value.vInt e.data.bank)),
   ("won", PropVal.val (Value.vInt e.data.won)),
   ("lost", PropVal.val (Value.vInt e.data.lost)),
   ("shared", PropVal.val (Value.vInt e.data.shared)),
   ("streak", PropVal.val (streakValue e.data)),
   ("upvoted", PropVal.val (Value.vBool e.data.upvoted)),
   ("dblUpvoted", PropVal.val (Value.vBool e.data.dblUpvoted)),
   ("_client", PropVal.clientRef),
   ("_changes", PropVal.val (Value.vObj e.changes))]

/-- `UserEntry.toPlainObject()` (lines 206-216): keeps every own
property whose value is not a function and whose key is neither
`_client` nor `_changes`. -/
def toPlainObject (e : UserEntry) : List (String × PropVal) :=
  (ownProps e).filter (fun p => decide (p.1 ≠ "_client") && decide (p.1 ≠ "_changes"))

mutual

/-- Well-formedness of a value reachable from a JavaScript object graph:
every nested object carries each key at most once. -/
def wfVal : Value → Bool
  | Value.vObj fs => wfFields fs
  | _ => true
termination_by v => sizeOf v
decreasing_by all_goals simp_wf

/-- Well-formedness of an object's field list: keys are pairwise
distinct (as JavaScript object keys are) and all values well formed. -/
def wfFields : List (String × Value) → Bool
  | [] => true
  | (k, v) :: rest => !(lookupVal rest k).isSome && wfVal v && wfFields rest
termination_by l => sizeOf l
decreasing_by all_goals (simp_wf <;> omega)

end

section MapLemmas

theorem lookupVal_setKey_self (l : List (String × Value)) (k : String) (v : Value) :
    lookupVal (setKey l k v) k = some v := by
  induction l with
  | nil => simp [setKey, lookupVal]
  | cons p rest ih =>
      obtain ⟨k0, w⟩ := p
      by_cases h : k0 = k <;> simp [setKey, lookupVal, h, ih]

theorem lookupVal_setKey_ne (l : List (String × Value)) (k q : String) (v : Value)
    (h : q ≠ k) : lookupVal (setKey l q v) k = lookupVal l k := by
  induction l with
  | nil => simp [setKey, lookupVal, h]
  | cons p rest ih =>
      obtain ⟨k0, w⟩ := p
      by_cases h0 : k0 = q
      · subst h0; simp [setKey, lookupVal, h]
      · simp [setKey, lookupVal, h0, ih]

theorem setKey_lookupVal_eq (l : List (String × Value)) (k : String) (v : Value)
    (h : lookupVal l k = some v) : setKey l k v = l := by
  induction l with
  | nil => simp [lookupVal] at h
  | cons p rest ih =>
      obtain ⟨k0, w⟩ := p
      by_cases h0 : k0 = k
      · subst h0
        simp [lookupVal] at h
        simp [setKey, h]
      · simp [lookupVal, h0] at h
        simp [setKey, h0, ih h]

theorem lookupVal_isSome_of_mem (l : List (String × Value)) (k : String) (v : Value)
    (h : (k, v) ∈ l) : (lookupVal l k).isSome = true := by
  induction l with
  | nil => simp at h
  | cons p rest ih =>
      obtain ⟨k0, w⟩ := p
      rcases List.mem_cons.mp h with h1 | h1
      · injection h1 with hk hv
        simp [lookupVal, hk]
      · by_cases h0 : k0 = k <;> simp [lookupVal, h0, ih h1]

theorem lookupVal_of_mem_wf (l : List (String × Value)) (k : String) (v : Value)
    (hwf : wfFields l = true) (h : (k, v) ∈ l) : lookupVal l k = some v := by
  induction l with
  | nil => simp at h
  | cons p rest ih =>
      obtain ⟨k0, w⟩ := p
      simp only [wfFields, Bool.and_eq_true, Bool.not_eq_true'] at hwf
      rcases List.mem_cons.mp h with h1 | h1
      · injection h1 with hk hv
        simp [lookupVal, hk, hv]
      · by_cases h0 : k0 = k
        · have hs := lookupVal_isSome_of_mem rest k v h1
          have hf := hwf.1.1
          rw [h0] at hf
          rw [hf] at hs
          simp at hs
        · simp [lookupVal, h0, ih hwf.2 h1]

theorem wfVal_of_mem (l : List (String × Value)) (k : String) (v : Value)
    (hwf : wfFields l = true) (h : (k, v) ∈ l) : wfVal v = true := by
  induction l with
  | nil => simp at h
  | cons p rest ih =>
      obtain ⟨k0, w⟩ := p
      simp only [wfFields, Bool.and_eq_true] at hwf
      rcases List.mem_cons.mp h with h1 | h1
      · injection h1 with hk hv
        exact hv ▸ hwf.1.2
      · exact ih hwf.2 h1

end MapLemmas

section MergeLemmas

theorem deepMergeGo_nil (t d : List (String × Value)) : deepMergeGo t d [] = d := by
  simp [deepMergeGo]

theorem deepMergeGo_cons (t d : List (String × Value)) (k : String) (sv : Value)
    (rest : List (String × Value)) :
    deepMergeGo t d ((k, sv) :: rest) =
      deepMergeGo t (setKey d k (mergeOpt (lookupVal t k) sv)) rest := by
  simp [deepMergeGo]

theorem mergeOpt_obj (tf sf : List (String × Value)) :
    mergeOpt (some (Value.vObj tf)) (Value.vObj sf) = Value.vObj (deepMergeGo tf tf sf) := by
  simp [mergeOpt]

theorem mergeOpt_of_target_not_obj (o : Option Value) (sv : Value)
    (h : ∀ tf, o ≠ some (Value.vObj tf)) : mergeOpt o sv = sv := by
  cases o with
  | none => cases sv <;> simp [mergeOpt]
  | some v =>
      cases v with
      | vObj tf => exact absurd rfl (h tf)
      | _ => cases sv <;> simp [mergeOpt]

theorem mergeOpt_of_source_not_obj (o : Option Value) (sv : Value)
    (h : ∀ sf, sv ≠ Value.vObj sf) : mergeOpt o sv = sv := by
  cases sv with
  | vObj sf => exact absurd rfl (h sf)
  | _ => cases o with
      | none => simp [mergeOpt]
      | some v => cases v <;> simp [mergeOpt]

theorem lookupVal_deepMergeGo_not_mem (t : List (String × Value)) (k : String) :
    ∀ (s d : List (String × Value)), k ∉ s.map Prod.fst →
      lookupVal (deepMergeGo t d s) k = lookupVal d k := by
  intro s
  induction s with
  | nil => intro d _; simp [deepMergeGo_nil]
  | cons p rest ih =>
      obtain ⟨k0, sv0⟩ := p
      intro d hk
      simp only [List.map_cons, List.mem_cons, not_or] at hk
      rw [deepMergeGo_cons, ih _ hk.2, lookupVal_setKey_ne _ _ _ _ (fun h => hk.1 h.symm)]

theorem lookupVal_deepMergeGo_mem (t : List (String × Value)) (k : String) (sv : Value) :
    ∀ (s d : List (String × Value)), (s.map Prod.fst).Nodup → (k, sv) ∈ s →
      lookupVal (deepMergeGo t d s) k = some (mergeOpt (lookupVal t k) sv) := by
  intro s
  induction s with
  | nil => intro d _ hm; simp at hm
  | cons p rest ih =>
      obtain ⟨k0, sv0⟩ := p
      intro d hnd hm
      simp only [List.map_cons, List.nodup_cons] at hnd
      rw [deepMergeGo_cons]
      rcases List.mem_cons.mp hm with h1 | h1
      · injection h1 with hk hv
        subst hk; subst hv
        rw [lookupVal_deepMergeGo_not_mem _ _ _ _ hnd.1, lookupVal_setKey_self]
      · exact ih _ hnd.2 h1

/-- Every key of `source` is present in the merged result, with the
value dictated by the per-key `mergeOpt` decision against `target`. -/
theorem lookupVal_deepMerge_mem (target source : List (String × Value)) (k : String)
    (sv : Value) (hnd : (source.map Prod.fst).Nodup) (hm : (k, sv) ∈ source) :
    lookupVal (deepMerge target source) k = some (mergeOpt (lookupVal target k) sv) :=
  lookupVal_deepMergeGo_mem target k sv source target hnd hm

end MergeLemmas

section IdempotenceLemmas

theorem deepMergeGo_self_of_le (n : Nat) :
    ∀ (X s : List (String × Value)), sizeOf X + sizeOf s ≤ n →
      wfFields X = true → (∀ p ∈ s, p ∈ X) → deepMergeGo X X s = X := by
  induction n with
  | zero =>
      intro X s hle _ _
      have hX : 0 < sizeOf X := by cases X <;> simp
      omega
  | succ n ih =>
      intro X s hle hwf hs
      match s with
      | [] => exact deepMergeGo_nil X X
      | (k, sv) :: rest =>
          have hmem : (k, sv) ∈ X := hs _ (List.mem_cons_self _ _)
          have hlk : lookupVal X k = some sv := lookupVal_of_mem_wf X k sv hwf hmem
          have hszX : sizeOf (k, sv) < sizeOf X := List.sizeOf_lt_of_mem hmem
          have hv : mergeOpt (lookupVal X k) sv = sv := by
            rw [hlk]
            cases sv with
            | vObj sf =>
                have hsf : wfFields sf = true := by
                  have hw := wfVal_of_mem X k _ hwf hmem
                  simpa [wfVal] using hw
                have hsz1 : sizeOf sf + sizeOf sf ≤ n := by
                  simp only [Prod.mk.sizeOf_spec, Value.vObj.sizeOf_spec,
                    List.cons.sizeOf_spec] at hszX hle
                  omega
                rw [mergeOpt_obj, ih sf sf hsz1 hsf (fun p hp => hp)]
            | vInt m => exact mergeOpt_of_source_not_obj _ _ (by intro sf h; cases h)
            | vStr m => exact mergeOpt_of_source_not_obj _ _ (by intro sf h; cases h)
            | vBool m => exact mergeOpt_of_source_not_obj _ _ (by intro sf h; cases h)
            | vRql m => exact mergeOpt_of_source_not_obj _ _ (by intro sf h; cases h)
          rw [deepMergeGo_cons, hv, setKey_lookupVal_eq X k sv hlk]
          have hsz2 : sizeOf X + sizeOf rest ≤ n := by
            have hp : 0 < sizeOf (k, sv) := by simp [Prod.mk.sizeOf_spec]
            simp only [List.cons.sizeOf_spec] at hle
            omega
          exact ih X rest hsz2 hwf (fun p hp => hs p (List.mem_cons_of_mem _ hp))

end IdempotenceLemmas

section Fixtures

/-- A concrete stored document, used by the witnesses below. -/
def dataA : UserData :=
  { id := "U1", pls := 0, lastCmd := 0, lastRan := "nothing", spam := 0,
    pocket := 50, bank := 0, won := 0, lost := 0, shared := 0,
    streakTime := 0, streakStreak := 0, upvoted := false, dblUpvoted := false }

/-- A freshly fetched record over `dataA`: empty ChangeSet. -/
def entryA : UserEntry := { data := dataA, changes := [] }

/-- The canonical document a successful commit returns in the witnesses. -/
def dataB : UserData := { dataA with pocket := 60, bank := 40, won := 100 }

/-- A gateway whose upsert always succeeds with document `dataB`. -/
def gatewayOk : Gateway := fun _ _ => Except.ok { new_val := dataB }

/-- A gateway whose upsert always fails. -/
def gatewayDown : Gateway := fun _ _ => Except.error (PersistenceError.failure "down")

/-- Like `entryA` but with different pre-commit local field values. -/
def entryA2 : UserEntry := { data := { dataA with pocket := 999 }, changes := [] }

/-- `entryA` after `addPocket 10`. -/
def entryAP : UserEntry :=
  { data := { dataA with pocket := 60, won := 10 },
    changes := [("pocket", Value.vRql (Rql.rowAdd "pocket" 10)),
                ("won", Value.vRql (Rql.rowAdd "won" 10))] }

/-- `entryAP` after `removePocket 5`. -/
def entryAPR : UserEntry :=
  { data := { dataA with pocket := 55, won := 10, lost := 5 },
    changes := [("pocket", Value.vRql (Rql.rowSubClampZero "pocket" 5)),
                ("won", Value.vRql (Rql.rowAdd "won" 10)),
                ("lost", Value.vRql (Rql.rowAdd "lost" 5))] }

end Fixtures

/-- Claim C1: a successful commit returns a brand-new record constructed
strictly from the document the gateway returned — an entry whose data is
exactly the returned `new_val` and whose ChangeSet is empty — while a
gateway failure propagates as-is; and the commit depends only on the
record's id and accumulated ChangeSet, never on the other pre-commit
local field values, so an identical retry issues the identical request
(the record itself, being untouched by the pure failure branch, is
unchanged). -/
theorem save_commit_contract (e : UserEntry) (g : Gateway) :
    (∀ res, g e.data.id e.changes = Except.ok res →
        save e g = Except.ok { data := res.new_val, changes := [] }) ∧
    (∀ err, g e.data.id e.changes = Except.error err →
        save e g = Except.error err) ∧
    (∀ e2, e2.data.id = e.data.id → e2.changes = e.changes →
        save e2 g = save e g) := by
  refine ⟨?_, ?_, ?_⟩
  · intro res h; simp [save, h]
  · intro err h; simp [save, h]
  · intro e2 h1 h2; simp [save, h1, h2]

/-- Witness for claim C1 at concrete gateways and records. -/
theorem save_commit_contract_witness :
    save entryA gatewayOk = Except.ok { data := dataB, changes := [] } ∧
    save entryA gatewayDown = Except.error (PersistenceError.failure "down") ∧
    save entryA2 gatewayOk = save entryA gatewayOk :=
  ⟨(save_commit_contract entryA gatewayOk).1 _ rfl,
   (save_commit_contract entryA gatewayDown).2.1 _ rfl,
   (save_commit_contract entryA gatewayOk).2.2 entryA2 rfl rfl⟩

/-- Claim C2: for every key of `source` (JavaScript objects carry each
key once, hence the Nodup hypothesis), when `target` lacks the key or
holds a non-object there, the merge maps the key to the `source` value
outright — even when that value is itself an object; when both sides
hold objects, the result at the key is the recursive merge. In
particular the two concrete instances from the spec hold. -/
theorem deepMerge_replace_or_recurse :
    (∀ (target source : List (String × Value)) (k : String) (sv : Value),
        (source.map Prod.fst).Nodup → (k, sv) ∈ source →
        ((∀ tf, lookupVal target k ≠ some (Value.vObj tf)) →
            lookupVal (deepMerge target source) k = some sv) ∧
        (∀ tf sf, lookupVal target k = some (Value.vObj tf) → sv = Value.vObj sf →
            lookupVal (deepMerge target source) k =
              some (Value.vObj (deepMerge tf sf)))) ∧
    deepMerge [("a", Value.vObj [("b", Value.vInt 1)])] [("a", Value.vInt 5)]
      = [("a", Value.vInt 5)] ∧
    deepMerge [("a", Value.vObj [("b", Value.vInt 1), ("c", Value.vInt 2)])]
        [("a", Value.vObj [("b", Value.vInt 9)])]
      = [("a", Value.vObj [("b", Value.vInt 9), ("c", Value.vInt 2)])] := by
  refine ⟨?_, ?_, ?_⟩
  · intro target source k sv hnd hm
    constructor
    · intro h
      rw [lookupVal_deepMerge_mem target source k sv hnd hm,
        mergeOpt_of_target_not_obj _ _ h]
    · intro tf sf hlt hsv
      subst hsv
      rw [lookupVal_deepMerge_mem target source k _ hnd hm, hlt, mergeOpt_obj]
      rfl
  · simp [deepMerge, deepMergeGo, mergeOpt, setKey, lookupVal]
  · simp [deepMerge, deepMergeGo, mergeOpt, setKey, lookupVal]

/-- Witness for claim C2: a scalar at the key of `target` is replaced by
the incoming object outright, and two objects merge recursively. -/
theorem deepMerge_replace_or_recurse_witness :
    lookupVal (deepMerge [("a", Value.vInt 1)] [("a", Value.vObj [("b", Value.vInt 2)])])
        "a" = some (Value.vObj [("b", Value.vInt 2)]) ∧
    lookupVal (deepMerge [("a", Value.vObj [("c", Value.vInt 3)])]
        [("a", Value.vObj [("b", Value.vInt 2)])]) "a"
      = some (Value.vObj (deepMerge [("c", Value.vInt 3)] [("b", Value.vInt 2)])) :=
  ⟨(deepMerge_replace_or_recurse.1 _ _ "a" _ (by simp) (by simp)).1
      (by intro tf h; simp [lookupVal] at h),
   (deepMerge_replace_or_recurse.1 _ _ "a" _ (by simp) (by simp)).2 _ _
      (by simp [lookupVal]) rfl⟩

/-- Claim C3: issuing `addPocket a` and then `removePocket b` before
commit leaves the "pocket" entry of the ChangeSet equal to the operation
produced by the second call only — the later pending operation
overwrites the earlier one instead of composing with it. -/
theorem later_mutation_overwrites (e e1 e2 : UserEntry) (a b : Int)
    (_ha : addPocket e a = Except.ok e1) (hb : removePocket e1 b = Except.ok e2) :
    lookupVal e2.changes "pocket" =
      some (Value.vRql (Rql.rowSubClampZero "pocket" b)) := by
  unfold removePocket at hb
  by_cases h0 : b = 0
  · rw [if_pos h0] at hb; cases hb
  · rw [if_neg h0] at hb
    injection hb with hb
    subst hb
    show lookupVal (deepMerge e1.changes
      [("pocket", Value.vRql (Rql.rowSubClampZero "pocket" b)),
       ("lost", Value.vRql (Rql.rowAdd "lost" b))]) "pocket" = _
    rw [lookupVal_deepMerge_mem _ _ "pocket"
        (Value.vRql (Rql.rowSubClampZero "pocket" b)) (by simp) (by simp),
      mergeOpt_of_source_not_obj _ _ (by intro sf h; simp at h)]

/-- Witness for claim C3: `addPocket 10` then `removePocket 5` on a
fresh record leaves the pending "pocket" operation equal to the clamped
subtraction of 5 produced by the second call. -/
theorem later_mutation_overwrites_witness :
    lookupVal entryAPR.changes "pocket" =
      some (Value.vRql (Rql.rowSubClampZero "pocket" 5)) :=
  later_mutation_overwrites entryA entryAP entryAPR 10 5
    (by simp [addPocket, update, deepMerge, deepMergeGo, mergeOpt, setKey, lookupVal,
      entryA, entryAP, dataA])
    (by simp [removePocket, update, deepMerge, deepMergeGo, mergeOpt, setKey, lookupVal,
      entryAP, entryAPR, dataA])

/-- A record with 5 coins in the pocket, for the claim C4 counterexample. -/
def entryP5 : UserEntry := { data := { dataA with pocket := 5 }, changes := [] }

/-- `entryP5` after `addPocket (-10)`: the pocket is negative. -/
def entryP5neg : UserEntry :=
  { data := { dataA with pocket := -5, won := -10 },
    changes := [("pocket", Value.vRql (Rql.rowAdd "pocket" (-10))),
                ("won", Value.vRql (Rql.rowAdd "won" (-10)))] }

/-- Counterexample to claim C4 as stated: `-10` is a non-zero numeric
amount, yet `addPocket (-10)` on a record whose pocket holds 5 succeeds
and leaves the local pocket at `-5`, strictly below 0 — the clause "the
local pocket value never goes below 0 under these two operations" fails
for negative amounts. -/
theorem addPocket_can_go_negative :
    addPocket entryP5 (-10) = Except.ok entryP5neg ∧ entryP5neg.data.pocket < 0 := by
  constructor
  · simp [addPocket, update, deepMerge, deepMergeGo, mergeOpt, setKey, lookupVal,
      entryP5, entryP5neg, dataA]
  · decide

/-- Claim C4 (amended): for every non-zero amount, `addPocket` adds
exactly `amount` to the local pocket and won fields, and `removePocket`
subtracts `min amount pocket` from the pocket (the `Math.max` clamp)
while adding `amount` to lost; and — the amendment — when the amount is
positive and the current pocket non-negative, the pocket stays
non-negative under both operations (for negative amounts `addPocket` can
drive it below 0, see the counterexample). -/
theorem pocket_mutation_contract (e : UserEntry) (a : Int) (ha : a ≠ 0) :
    addPocket e a = Except.ok (update { e with data :=
        { e.data with pocket := e.data.pocket + a, won := e.data.won + a } }
      [("pocket", Value.vRql (Rql.rowAdd "pocket" a)),
       ("won", Value.vRql (Rql.rowAdd "won" a))]) ∧
    removePocket e a = Except.ok (update { e with data :=
        { e.data with pocket := max (e.data.pocket - a) 0,
                      lost := e.data.lost + a } }
      [("pocket", Value.vRql (Rql.rowSubClampZero "pocket" a)),
       ("lost", Value.vRql (Rql.rowAdd "lost" a))]) ∧
    max (e.data.pocket - a) 0 = e.data.pocket - min a e.data.pocket ∧
    (0 < a → 0 ≤ e.data.pocket →
      0 ≤ e.data.pocket + a ∧ 0 ≤ max (e.data.pocket - a) 0) := by
  refine ⟨?_, ?_, by omega, by omega⟩
  · rw [addPocket, if_neg ha]
  · rw [removePocket, if_neg ha]

/-- Witness for claim C4 (amended) at `entryP5` and amount 3. -/
theorem pocket_mutation_contract_witness :
    addPocket entryP5 3 = Except.ok (update { entryP5 with data :=
        { entryP5.data with pocket := entryP5.data.pocket + 3,
                            won := entryP5.data.won + 3 } }
      [("pocket", Value.vRql (Rql.rowAdd "pocket" 3)),
       ("won", Value.vRql (Rql.rowAdd "won" 3))]) ∧
    0 ≤ entryP5.data.pocket + 3 ∧ 0 ≤ max (entryP5.data.pocket - 3) 0 :=
  ⟨(pocket_mutation_contract entryP5 3 (by decide)).1,
   (pocket_mutation_contract entryP5 3 (by decide)).2.2.2 (by decide) (by decide)⟩

/-- Claim C5: `addBank amount true` adds `amount` to the local bank and
clamps the local pocket at `max (pocket - amount) 0`, enqueueing a
relative add on bank and a clamped relative subtraction on pocket. -/
theorem addBank_transfer_contract (e : UserEntry) (a : Int) (ha : a ≠ 0) :
    addBank e a true = Except.ok (update { e with data :=
        { e.data with bank := e.data.bank + a,
                      pocket := max (e.data.pocket - a) 0 } }
      [("bank", Value.vRql (Rql.rowAdd "bank" a)),
       ("pocket", Value.vRql (Rql.rowSubClampZero "pocket" a))]) := by
  rw [addBank, if_neg ha]
  rfl

/-- The record of the claim C5 example (pocket 50, bank 0) after
`addBank 100 true`: pocket clamped to 0, bank 100. -/
def entryBanked : UserEntry :=
  { data := { dataA with pocket := 0, bank := 100 },
    changes := [("bank", Value.vRql (Rql.rowAdd "bank" 100)),
                ("pocket", Value.vRql (Rql.rowSubClampZero "pocket" 100))] }

/-- Witness for claim C5: on pocket 50 and bank 0, `addBank 100 true`
yields pocket 0 (clamped, not -50) and bank 100. -/
theorem addBank_transfer_contract_witness :
    addBank entryA 100 true = Except.ok entryBanked ∧
    entryBanked.data.pocket = 0 ∧ entryBanked.data.bank = 100 := by
  refine ⟨?_, by decide, by decide⟩
  rw [addBank_transfer_contract entryA 100 (by decide)]
  simp [update, deepMerge, deepMergeGo, mergeOpt, setKey, lookupVal,
    entryA, entryBanked, dataA]

/-- Claim C6: `updateStreak timestamp streak` sets the local streak
structure to the literal pair of its two arguments (their defaults being
the ambient clock and the current streak plus one), while the operation
merged into the ChangeSet sets `streak.time` literally and applies the
hard-coded relative `add(1)` to `streak.streak` — independent of the
`streak` argument supplied. -/
theorem updateStreak_contract (e : UserEntry) (ts st now : Int) :
    updateStreak e ts st =
      { data := { e.data with streakTime := ts, streakStreak := st },
        changes := deepMerge e.changes
          [("streak", Value.vObj
            [("time", Value.vInt ts),
             ("streak", Value.vRql Rql.streakStreakAddOne)])] } ∧
    (∀ st2, (updateStreak e ts st).changes = (updateStreak e ts st2).changes) ∧
    updateStreakDefaults now e = updateStreak e now (e.data.streakStreak + 1) :=
  ⟨rfl, fun _ => rfl, rfl⟩

/-- Claim C7: each of the four currency mutation methods fails with
`missingArgument` exactly when the amount is falsy (zero); the check is
the first statement of each method, before any local field or ChangeSet
write, so a raising call leaves the record untouched — in this pure
embedding the error branch returns no modified entry at all. -/
theorem missing_argument_iff (e : UserEntry) (a : Int) (t : Bool) :
    (addPocket e a = Except.error EntryError.missingArgument ↔ a = 0) ∧
    (removePocket e a = Except.error EntryError.missingArgument ↔ a = 0) ∧
    (addBank e a t = Except.error EntryError.missingArgument ↔ a = 0) ∧
    (removeBank e a t = Except.error EntryError.missingArgument ↔ a = 0) := by
  by_cases h0 : a = 0 <;> cases t <;>
    simp [addPocket, removePocket, addBank, removeBank, h0]

theorem toJSONFuel_none : ∀ (n : Nat) (e : UserEntry), toJSONFuel n e = none := by
  intro n
  induction n with
  | zero => intro e; rfl
  | succ n ih => intro e; simp [toJSONFuel, ih]

/-- Claim C8, checked against the code: `toPlainObject` indeed projects
exactly the data fields, excluding the `_client` gateway reference, the
`_changes` ChangeSet and every method; but `toJSON` never returns a text
at all — `JSON.stringify(this)` invokes the instance's own `toJSON`
method again (the stringify toJSON protocol), so the call recurses
without bound: no amount of fuel produces a string. -/
theorem serialization_views_behavior (n : Nat) (e : UserEntry) :
    toJSONFuel n e = none ∧
    (toPlainObject e).map Prod.fst =
      ["id", "pls", "lastCmd", "lastRan", "spam", "pocket", "bank", "won",
       "lost", "shared", "streak", "upvoted", "dblUpvoted"] := by
  refine ⟨toJSONFuel_none n e, ?_⟩
  simp [toPlainObject, ownProps]

/-- Claim C9: deep-merging a well-formed mapping with itself returns it
unchanged (`merge(X, X) = X`); in this pure embedding the function
cannot mutate its arguments, and the result is a freshly built list. -/
theorem deepMerge_self_idempotent (X : List (String × Value))
    (hwf : wfFields X = true) : deepMerge X X = X :=
  deepMergeGo_self_of_le (sizeOf X + sizeOf X) X X (Nat.le_refl _) hwf (fun _ hp => hp)

/-- A concrete nested well-formed mapping for the claim C9 witness. -/
def objX : List (String × Value) :=
  [("a", Value.vObj [("b", Value.vInt 1), ("c", Value.vInt 2)]),
   ("d", Value.vStr "x"),
   ("e", Value.vObj [])]

/-- Witness for claim C9 at a concrete nested mapping. -/
theorem deepMerge_self_idempotent_witness : deepMerge objX objX = objX :=
  deepMerge_self_idempotent objX
    (by simp [objX, wfFields, wfVal, lookupVal])

/-- A record with 10 coins in the pocket and 30 in the bank, for the
claim C10 witness. -/
def entryBank30 : UserEntry :=
  { data := { dataA with pocket := 10, bank := 30 }, changes := [] }

/-- Claim C10: when the local bank holds less than `amount` (banks are
non-negative), `removeBank amount true` clamps the local bank to 0 yet
still adds the full `amount` to the local pocket, so the local total
`pocket + bank` strictly grows by `amount` minus the old bank value —
the transfer does not conserve the total balance. -/
theorem removeBank_overdraw_inflates (e : UserEntry) (a : Int)
    (hb0 : 0 ≤ e.data.bank) (hlt : e.data.bank < a) :
    removeBank e a true = Except.ok (update { e with data :=
        { e.data with bank := 0, pocket := e.data.pocket + a } }
      [("bank", Value.vRql (Rql.rowSubClampZero "bank" a)),
       ("pocket", Value.vRql (Rql.rowAdd "pocket" a))]) ∧
    (e.data.pocket + a) + 0 = (e.data.pocket + e.data.bank) + (a - e.data.bank) ∧
    0 < a - e.data.bank := by
  have ha : a ≠ 0 := by omega
  have hm : max (e.data.bank - a) 0 = 0 := by omega
  refine ⟨?_, by omega, by omega⟩
  rw [removeBank, if_neg ha]
  simp only [if_true, hm]

/-- Witness for claim C10: `removeBank 100 true` on pocket 10 and bank
30 clamps the bank to 0 and raises the pocket to 110, inflating the
total from 40 to 110. -/
theorem removeBank_overdraw_inflates_witness :
    removeBank entryBank30 100 true = Except.ok (update { entryBank30 with data :=
        { entryBank30.data with bank := 0,
                                pocket := entryBank30.data.pocket + 100 } }
      [("bank", Value.vRql (Rql.rowSubClampZero "bank" 100)),
       ("pocket", Value.vRql (Rql.rowAdd "pocket" 100))]) ∧
    (entryBank30.data.pocket + 100) + 0 =
      (entryBank30.data.pocket + entryBank30.data.bank) +
        (100 - entryBank30.data.bank) ∧
    (0 : Int) < 100 - entryBank30.data.bank :=
  removeBank_overdraw_inflates entryBank30 100 (by decide) (by decide)

end DankMemer
